import Mathlib

/-!
Shallow embedding of the krep cardio-microdose core (crate `cardio_core` plus
the decision-session loop of `cardio_cli`) and proofs checking the
natural-language specification against it.

Modelling conventions:
* `chrono::DateTime<Utc>` is modelled as `Int` (seconds since the epoch);
  `chrono::Duration::hours/days` become the corresponding second counts.
* `uuid::Uuid` (a 128-bit random id) is modelled as `Nat`.
* Rust `i32` fields (reps, ceilings) are modelled as `Int`; the `u32` level
  counter is modelled as `Nat` (in the source an overflowing `level += 1`
  panics in debug profile rather than producing a value).
* `HashMap<String, ProgressionState>` is modelled as an association list with
  the first binding of a key authoritative; `HashMap::entry(..).or_insert_with`
  becomes `upsertProg`.
* A JSONL WAL file is modelled as its list of lines (`WalLine`): a line is
  either the serde_json output of one well-formed session record (constructor
  `WalLine.record`, carrying the session it round-trips to - serde_json
  serialization of a derived struct is one newline-free line that parses back
  to an equal value), a blank line, or unparseable bytes (`WalLine.bad`).
  The CSV archive source used by the history loader is modelled the same way,
  one parse outcome per data row.
* Filesystem effects of the rollup are modelled as a state transition on
  `RollupFs` (the three paths the function touches) together with the ordered
  trace of its externally visible actions, so that the sync-before-rename
  ordering is statable.
-/

-- ============================================================================
-- Domain types (src/cardio_core/src/types.rs)
-- ============================================================================

/-- Burpee variation styles (`BurpeeStyle` in types.rs). -/
inductive BurpeeStyle where
  | fourCount
  | sixCount
  | sixCountTwoPump
  | seal
deriving DecidableEq

/-- Specification for resistance bands (`BandSpec` in types.rs). -/
inductive BandSpec where
  | nothing
  | namedColour (colour : String)
deriving DecidableEq

/-- Style variations for movements (`MovementStyle` in types.rs). -/
inductive MovementStyle where
  | nothing
  | burpee (style : BurpeeStyle)
  | band (spec : BandSpec)
deriving DecidableEq

/-- Metric specification (`MetricSpec` in types.rs). -/
inductive MetricSpec where
  | reps (key : String) (dflt min max step : Int) (progressable : Bool)
  | band (key : String) (dflt : String) (progressable : Bool)
deriving DecidableEq

/-- Category of microdose workout (`MicrodoseCategory` in types.rs). -/
inductive MicrodoseCategory where
  | vo2
  | gtg
  | mobility
deriving DecidableEq

/-- A single work block within a microdose (`MicrodoseBlock` in types.rs). -/
structure MicrodoseBlock where
  movement_id : String
  movement_style : MovementStyle
  duration_hint_seconds : Nat
  metrics : List MetricSpec
deriving DecidableEq

/-- A complete microdose workout definition (`MicrodoseDefinition` in types.rs). -/
structure MicrodoseDefinition where
  id : String
  name : String
  category : MicrodoseCategory
  suggested_duration_seconds : Nat
  gtg_friendly : Bool
  blocks : List MicrodoseBlock
  reference_url : Option String
deriving DecidableEq

/-- A recorded microdose session (`MicrodoseSession` in types.rs). -/
structure Session where
  id : Nat
  definition_id : String
  performed_at : Int
  started_at : Option Int
  completed_at : Option Int
  actual_duration_seconds : Option Nat
  metrics_realized : List MetricSpec
  perceived_rpe : Option Nat
  avg_hr : Option Nat
  max_hr : Option Nat
deriving DecidableEq

/-- Type-level distinction between real sessions and skipped prescriptions
(`SessionKind` in types.rs): only `real` carries a persistable record. -/
inductive SessionKind where
  | real (session : Session)
  | shownButSkipped (definition_id : String) (shown_at : Int)
deriving DecidableEq

/-- Progression state for one microdose definition (`ProgressionState` in types.rs). -/
structure ProgressionState where
  reps : Int
  style : MovementStyle
  level : Nat
  last_upgraded : Option Int
deriving DecidableEq

/-- The persistent per-user aggregate (`UserMicrodoseState` in types.rs);
the `HashMap` of progressions is modelled as an association list. -/
structure UserMicrodoseState where
  progressions : List (String × ProgressionState)
  last_mobility_def_id : Option String
deriving DecidableEq

/-- The `Default` value of `UserMicrodoseState`: empty progressions, no cursor. -/
def UserMicrodoseState.default : UserMicrodoseState :=
  { progressions := [], last_mobility_def_id := none }

/-- Type of strength training session (`StrengthSessionType` in types.rs). -/
inductive StrengthSessionType where
  | lower
  | upper
  | full
  | other (s : String)
deriving DecidableEq

/-- External strength training signal (`ExternalStrengthSignal` in types.rs). -/
structure ExternalStrengthSignal where
  last_session_at : Int
  session_type : StrengthSessionType
deriving DecidableEq

/-- Runtime context for the prescription engine (`UserContext` in types.rs).
`engine.rs` reads `recent_sessions` through the `MicrodoseSession` field
accessors (`definition_id`, `performed_at`), so the history view is modelled
as a list of `Session` values, newest first. -/
structure UserContext where
  now : Int
  user_state : UserMicrodoseState
  recent_sessions : List Session
  external_strength : Option ExternalStrengthSignal
  equipment_available : List String

-- ============================================================================
-- String helpers: Rust `str::contains` and byte-lexicographic `String` order
-- ============================================================================

/-- Check that the first character list is an initial segment of the second
(helper for Rust `str::contains`). -/
def charsHdMatch : List Char → List Char → Bool
  | [], _ => true
  | _ :: _, [] => false
  | p :: ps, c :: cs => decide (p = c) && charsHdMatch ps cs

/-- Check that the pattern occurs as a contiguous run somewhere in the text
(helper for Rust `str::contains`). -/
def charsFind (pat : List Char) : List Char → Bool
  | [] => pat.isEmpty
  | c :: cs => charsHdMatch pat (c :: cs) || charsFind pat cs

/-- Rust `s.contains(pat)` for string slices. -/
def strContains (s pat : String) : Bool :=
  charsFind pat.toList s.toList

/-- Lexicographic order on character lists (helper for Rust `String` ordering;
the catalog ids are ASCII, where character order equals byte order). -/
def lexLe : List Char → List Char → Bool
  | [], _ => true
  | _ :: _, [] => false
  | a :: as, b :: bs =>
    if a.toNat < b.toNat then true
    else if b.toNat < a.toNat then false
    else lexLe as bs

/-- Rust `String` ordering `a <= b`, used by `sort_by_key(|d| &d.id)`. -/
def strLe (a b : String) : Bool :=
  lexLe a.toList b.toList

-- ============================================================================
-- Write-ahead log (src/cardio_core/src/wal.rs)
-- ============================================================================

/-- One line of the JSONL WAL file (or one data row of the CSV archive):
either the serialization of a well-formed session record, a blank line, or
unparseable content. -/
inductive WalLine where
  | record (session : Session)
  | blank
  | bad (raw : String)
deriving DecidableEq

/-- Embedding of `JsonlSink::append` (wal.rs): under the exclusive lock it
writes `serde_json::to_string(session)` plus a newline at the end of the
file, i.e. appends one well-formed record line. -/
def wal_append (file : List WalLine) (session : Session) : List WalLine :=
  file ++ [WalLine.record session]

/-- Append a whole sequence of sessions in order via `JsonlSink::append`. -/
def wal_append_all (file : List WalLine) (sessions : List Session) : List WalLine :=
  sessions.foldl wal_append file

/-- Embedding of `read_sessions` (wal.rs) on the lines of an existing file:
blank lines are skipped, lines that fail to parse are skipped with a warning,
every successfully parsed record is returned in file order. -/
def read_sessions : List WalLine → List Session
  | [] => []
  | WalLine.record s :: rest => s :: read_sessions rest
  | WalLine.blank :: rest => read_sessions rest
  | WalLine.bad _ :: rest => read_sessions rest

-- ============================================================================
-- CSV rollup (src/cardio_core/src/csv_rollup.rs)
-- ============================================================================

/-- A row in the CSV output (`CsvRow` in csv_rollup.rs); timestamps are kept
in their model representation (`to_rfc3339` is injective on them). -/
structure CsvRow where
  id : Nat
  definition_id : String
  performed_at : Int
  started_at : Option Int
  completed_at : Option Int
  duration : Option Nat
  perceived_rpe : Option Nat
  avg_hr : Option Nat
  max_hr : Option Nat
deriving DecidableEq

/-- Embedding of `From<&MicrodoseSession> for CsvRow`: the realized metrics
are not stored in the CSV. -/
def csvRowOfSession (s : Session) : CsvRow :=
  { id := s.id
    definition_id := s.definition_id
    performed_at := s.performed_at
    started_at := s.started_at
    completed_at := s.completed_at
    duration := s.actual_duration_seconds
    perceived_rpe := s.perceived_rpe
    avg_hr := s.avg_hr
    max_hr := s.max_hr }

/-- One line of the CSV archive file as written by the rollup. -/
inductive CsvLine where
  | header
  | row (r : CsvRow)
deriving DecidableEq

/-- Externally visible filesystem actions of `wal_to_csv_and_archive`, in
execution order. -/
inductive RollupEvent where
  | readWal
  | writeCsv
  | syncCsv
  | renameWal
deriving DecidableEq

/-- The part of the filesystem `wal_to_csv_and_archive` touches: the WAL path,
the CSV archive path and the `.wal.processed` path next to the WAL
(`wal_path.with_extension("wal.processed")`). `none` means the path does not
exist; a file is its list of lines. -/
structure RollupFs where
  wal : Option (List WalLine)
  csv : Option (List CsvLine)
  processed : Option (List WalLine)
deriving DecidableEq

/-- Embedding of `wal_to_csv_and_archive` (csv_rollup.rs). Returns the session
count, the filesystem after the call, and the ordered trace of its actions:
it reads the WAL (absent path reads as no sessions), returns 0 touching
nothing if no session parsed, otherwise appends one row per session to the
CSV (opening with create+append, writing the header iff the file opened
empty), flushes and fsyncs the CSV, and only then renames the WAL onto the
processed path. -/
def wal_to_csv_and_archive (fs : RollupFs) : Nat × RollupFs × List RollupEvent :=
  let sessions := read_sessions (fs.wal.getD [])
  if sessions.isEmpty then
    (0, fs, [RollupEvent.readWal])
  else
    let csvLines := fs.csv.getD []
    let needsHeaders := csvLines.isEmpty
    let newCsv := csvLines
      ++ (if needsHeaders then [CsvLine.header] else [])
      ++ sessions.map (fun s => CsvLine.row (csvRowOfSession s))
    (sessions.length,
     { wal := none, csv := some newCsv, processed := fs.wal },
     [RollupEvent.readWal, RollupEvent.writeCsv, RollupEvent.syncCsv,
      RollupEvent.renameWal])

-- ============================================================================
-- History loader (src/cardio_core/src/history.rs)
-- ============================================================================

/-- Embedding of the CSV half of the `load_recent_sessions` loop: walk the
parsed archive sessions keeping those at or after the cutoff whose id has not
been seen, extending the seen set with each kept id. -/
def csvFilterDedup (cutoff : Int) : List Nat → List Session → List Session
  | _, [] => []
  | seen, s :: rest =>
    if cutoff ≤ s.performed_at && !(seen.contains s.id) then
      s :: csvFilterDedup cutoff (s.id :: seen) rest
    else
      csvFilterDedup cutoff seen rest

/-- Newest-first comparison used by `sessions.sort_by(|a, b|
b.performed_at.cmp(&a.performed_at))`; `sort_by` is a stable sort, so the
stable `List.insertionSort` under the same total preorder yields the same
list. -/
def newestFirst (a b : Session) : Prop :=
  b.performed_at ≤ a.performed_at

instance : DecidableRel newestFirst :=
  fun a b => inferInstanceAs (Decidable (b.performed_at ≤ a.performed_at))

/-- The WAL contribution of `load_recent_sessions`: if the WAL path exists,
every parsed session at or after the cutoff `now - days` (in days), else
nothing. -/
def walWindowOf (now days : Int) : Option (List WalLine) → List Session
  | some w => (read_sessions w).filter (fun s => decide (now - days * 86400 ≤ s.performed_at))
  | none => []

/-- The CSV contribution of `load_recent_sessions`: if the archive path
exists, its parsed rows filtered by the cutoff and deduplicated against the
ids already seen, else nothing. -/
def csvKeptOf (now days : Int) (seen : List Nat) : Option (List WalLine) → List Session
  | some c => csvFilterDedup (now - days * 86400) seen (read_sessions c)
  | none => []

/-- Embedding of `load_recent_sessions` (history.rs): the WAL contributes
every parsed session within the window (recording its id as seen), the CSV
contributes parsed sessions within the window whose id was not yet seen, and
the result is sorted newest first. An absent source (`none`) contributes
nothing. -/
def load_recent_sessions (now days : Int)
    (wal csv : Option (List WalLine)) : List Session :=
  let walSessions := walWindowOf now days wal
  List.insertionSort newestFirst
    (walSessions ++ csvKeptOf now days (walSessions.map (fun s => s.id)) csv)

/-- Embedding of `find_last_session_by_category` (history.rs): first session
in the (newest-first) list whose definition id contains the category marker
as a substring. -/
def find_last_session_by_category (sessions : List Session)
    (category : String) : Option Session :=
  sessions.find? (fun s => strContains s.definition_id category)

-- ============================================================================
-- Prescription engine (src/cardio_core/src/engine.rs)
-- ============================================================================

/-- A prescribed microdose with computed intensity (`PrescribedMicrodose`). -/
structure PrescribedMicrodose where
  definition : MicrodoseDefinition
  reps : Option Int
  style : Option MovementStyle
deriving DecidableEq

/-- Embedding of `determine_category` (engine.rs). Rule 1: a Lower strength
signal younger than 24 hours forces Gtg. Rule 2: the most recent history
entry whose definition id contains the substring \x22vo2\x22; if none, or it is
more than 4 hours old, choose Vo2. Rule 3: rotate from the category inferred
from the first history entry by substring markers, defaulting to Vo2. -/
def determine_category (ctx : UserContext) : MicrodoseCategory :=
  let strengthFires :=
    match ctx.external_strength with
    | some strength =>
      decide (ctx.now - strength.last_session_at < 24 * 3600) &&
        decide (strength.session_type = StrengthSessionType.lower)
    | none => false
  if strengthFires then
    MicrodoseCategory.gtg
  else
    match find_last_session_by_category ctx.recent_sessions "vo2" with
    | some lastVo2 =>
      if ctx.now - lastVo2.performed_at > 4 * 3600 then
        MicrodoseCategory.vo2
      else
        let lastCategory :=
          ctx.recent_sessions.head?.bind (fun s =>
            if strContains s.definition_id "vo2" || strContains s.definition_id "emom" then
              some MicrodoseCategory.vo2
            else if strContains s.definition_id "gtg" then
              some MicrodoseCategory.gtg
            else if strContains s.definition_id "mobility" then
              some MicrodoseCategory.mobility
            else
              none)
        match lastCategory with
        | some MicrodoseCategory.vo2 => MicrodoseCategory.gtg
        | some MicrodoseCategory.gtg => MicrodoseCategory.mobility
        | some MicrodoseCategory.mobility => MicrodoseCategory.vo2
        | none => MicrodoseCategory.vo2
    | none => MicrodoseCategory.vo2

/-- Ascending-by-id order used by `candidates.sort_by_key(|d| &d.id)`. -/
def idLe (a b : MicrodoseDefinition) : Prop :=
  strLe a.id b.id = true

instance : DecidableRel idLe :=
  fun a b => inferInstanceAs (Decidable (strLe a.id b.id = true))

/-- The sorted candidate list of a category: every catalog definition of the
category, sorted ascending by id (the `HashMap` iteration order is
irrelevant after the sort). -/
def categoryCandidates (catalog : List MicrodoseDefinition)
    (category : MicrodoseCategory) : List MicrodoseDefinition :=
  List.insertionSort idLe (catalog.filter (fun d => decide (d.category = category)))

/-- Embedding of `select_definition_from_category` (engine.rs); the `Err` on
an empty candidate list becomes `none`. Vo2: first candidate whose id differs
from the most recent Vo2-marked (\x22vo2\x22 or \x22emom\x22 substring) session, else
first. Gtg: first. Mobility: cursor-driven round-robin over the sorted
candidates. -/
def select_definition_from_category (catalog : List MicrodoseDefinition)
    (ctx : UserContext) (category : MicrodoseCategory) :
    Option MicrodoseDefinition :=
  let candidates := categoryCandidates catalog category
  if candidates.isEmpty then
    none
  else
    match category with
    | MicrodoseCategory.vo2 =>
      let lastVo2Def :=
        (ctx.recent_sessions.find? (fun s =>
          strContains s.definition_id "vo2" || strContains s.definition_id "emom")).map
          (fun s => s.definition_id)
      match lastVo2Def with
      | some last =>
        match candidates.find? (fun d => decide (d.id ≠ last)) with
        | some d => some d
        | none => candidates.head?
      | none => candidates.head?
    | MicrodoseCategory.gtg => candidates.head?
    | MicrodoseCategory.mobility =>
      match ctx.user_state.last_mobility_def_id with
      | some last =>
        match candidates.findIdx? (fun d => decide (d.id = last)) with
        | some idx => candidates[(idx + 1) % candidates.length]?
        | none => candidates.head?
      | none => candidates.head?

/-- Embedding of `compute_intensity` (engine.rs): stored progression reps and
style when present, otherwise the first block's first reps-metric default and
the first block's movement style. -/
def compute_intensity (definition : MicrodoseDefinition) (ctx : UserContext) :
    Option Int × Option MovementStyle :=
  match ctx.user_state.progressions.find? (fun p => decide (p.1 = definition.id)) with
  | some p => (some p.2.reps, some p.2.style)
  | none =>
    let firstBlock := definition.blocks.head?
    let defaultReps := firstBlock.bind (fun b =>
      b.metrics.findSome? (fun m =>
        match m with
        | MetricSpec.reps _ dflt _ _ _ _ => some dflt
        | MetricSpec.band _ _ _ => none))
    let defaultStyle := firstBlock.map (fun b => b.movement_style)
    (defaultReps, defaultStyle)

/-- Embedding of `prescribe_next` (engine.rs): explicit target category if
given, else `determine_category`; then definition selection and intensity. -/
def prescribe_next (catalog : List MicrodoseDefinition) (ctx : UserContext)
    (target_category : Option MicrodoseCategory) : Option PrescribedMicrodose :=
  let category := target_category.getD (determine_category ctx)
  (select_definition_from_category catalog ctx category).map (fun d =>
    let intensity := compute_intensity d ctx
    { definition := d, reps := intensity.1, style := intensity.2 })

-- ============================================================================
-- Default catalog (src/cardio_core/src/catalog.rs, microdose definitions)
-- ============================================================================

/-- The five microdose definitions inserted by `build_default_catalog_internal`
(the movement table is not consumed by any operation under proof). -/
def default_microdoses : List MicrodoseDefinition :=
  [ { id := "emom_kb_swing_5m"
      name := "5-Min EMOM: KB Swings (2-hand)"
      category := MicrodoseCategory.vo2
      suggested_duration_seconds := 300
      gtg_friendly := false
      reference_url := none
      blocks := [ { movement_id := "kb_swing_2h"
                    movement_style := MovementStyle.nothing
                    duration_hint_seconds := 60
                    metrics := [MetricSpec.reps "reps" 5 3 15 1 true] } ] },
    { id := "emom_burpee_5m"
      name := "5-Min EMOM: Burpees"
      category := MicrodoseCategory.vo2
      suggested_duration_seconds := 300
      gtg_friendly := false
      reference_url := none
      blocks := [ { movement_id := "burpee"
                    movement_style := MovementStyle.burpee BurpeeStyle.fourCount
                    duration_hint_seconds := 60
                    metrics := [MetricSpec.reps "reps" 3 2 10 1 true] } ] },
    { id := "gtg_pullup_band"
      name := "GTG: Banded Pull-ups"
      category := MicrodoseCategory.gtg
      suggested_duration_seconds := 30
      gtg_friendly := true
      reference_url := none
      blocks := [ { movement_id := "pullup"
                    movement_style := MovementStyle.band (BandSpec.namedColour "red")
                    duration_hint_seconds := 30
                    metrics := [MetricSpec.reps "reps" 3 1 8 1 true,
                                MetricSpec.band "band" "red" false] } ] },
    { id := "mobility_hip_cars"
      name := "Hip CARs (3 reps each side)"
      category := MicrodoseCategory.mobility
      suggested_duration_seconds := 120
      gtg_friendly := true
      reference_url := none
      blocks := [ { movement_id := "hip_cars"
                    movement_style := MovementStyle.nothing
                    duration_hint_seconds := 120
                    metrics := [MetricSpec.reps "reps_per_side" 3 2 5 1 false] } ] },
    { id := "mobility_shoulder_cars"
      name := "Shoulder CARs (3 reps each side)"
      category := MicrodoseCategory.mobility
      suggested_duration_seconds := 120
      gtg_friendly := true
      reference_url := none
      blocks := [ { movement_id := "shoulder_cars"
                    movement_style := MovementStyle.nothing
                    duration_hint_seconds := 120
                    metrics := [MetricSpec.reps "reps_per_side" 3 2 5 1 false] } ] } ]

/-- A definition id denotes the Vo2 category when it identifies a catalog
definition whose category is Vo2 (the spec reading of rule 2's notion of a
Vo2 history entry). -/
def denotesVo2 (catalog : List MicrodoseDefinition) (defId : String) : Bool :=
  catalog.any (fun d => decide (d.id = defId) && decide (d.category = MicrodoseCategory.vo2))

/-- Category decision as the spec states it, for comparison against
`determine_category`: identical rules 1 and 3, but rule 2 keys the Vo2
recency check on history entries whose definition id denotes the Vo2
category in the catalog instead of on the \x22vo2\x22 substring. -/
def determine_category_per_spec (catalog : List MicrodoseDefinition)
    (ctx : UserContext) : MicrodoseCategory :=
  let strengthFires :=
    match ctx.external_strength with
    | some strength =>
      decide (ctx.now - strength.last_session_at < 24 * 3600) &&
        decide (strength.session_type = StrengthSessionType.lower)
    | none => false
  if strengthFires then
    MicrodoseCategory.gtg
  else
    match ctx.recent_sessions.find? (fun s => denotesVo2 catalog s.definition_id) with
    | some lastVo2 =>
      if ctx.now - lastVo2.performed_at > 4 * 3600 then
        MicrodoseCategory.vo2
      else
        let lastCategory :=
          ctx.recent_sessions.head?.bind (fun s =>
            if strContains s.definition_id "vo2" || strContains s.definition_id "emom" then
              some MicrodoseCategory.vo2
            else if strContains s.definition_id "gtg" then
              some MicrodoseCategory.gtg
            else if strContains s.definition_id "mobility" then
              some MicrodoseCategory.mobility
            else
              none)
        match lastCategory with
        | some MicrodoseCategory.vo2 => MicrodoseCategory.gtg
        | some MicrodoseCategory.gtg => MicrodoseCategory.mobility
        | some MicrodoseCategory.mobility => MicrodoseCategory.vo2
        | none => MicrodoseCategory.vo2
    | none => MicrodoseCategory.vo2

-- ============================================================================
-- Progression rules (src/cardio_core/src/progression.rs)
-- ============================================================================

/-- Embedding of `upgrade_burpee` (progression.rs); `now` stands for the
`Utc::now()` the function records on upgrade. -/
def upgrade_burpee (now : Int) (st : ProgressionState) (rep_ceiling : Int) :
    ProgressionState :=
  if st.reps < rep_ceiling then
    { st with reps := st.reps + 1, level := st.level + 1, last_upgraded := some now }
  else
    match st.style with
    | MovementStyle.burpee BurpeeStyle.fourCount =>
      { st with style := MovementStyle.burpee BurpeeStyle.sixCount, reps := 6,
                level := st.level + 1, last_upgraded := some now }
    | MovementStyle.burpee BurpeeStyle.sixCount =>
      { st with style := MovementStyle.burpee BurpeeStyle.sixCountTwoPump, reps := 5,
                level := st.level + 1, last_upgraded := some now }
    | MovementStyle.burpee BurpeeStyle.sixCountTwoPump =>
      { st with style := MovementStyle.burpee BurpeeStyle.seal, reps := 4,
                level := st.level + 1, last_upgraded := some now }
    | MovementStyle.burpee BurpeeStyle.seal =>
      { st with reps := rep_ceiling, level := st.level + 1, last_upgraded := some now }
    | _ =>
      { st with style := MovementStyle.burpee BurpeeStyle.fourCount, reps := 3,
                level := st.level + 1, last_upgraded := some now }

/-- Embedding of `upgrade_kb_swing` (progression.rs). -/
def upgrade_kb_swing (now : Int) (st : ProgressionState) (base_reps max_reps : Int) :
    ProgressionState :=
  if st.reps < max_reps then
    { st with reps := min (base_reps + Int.ofNat st.level + 1) max_reps,
              level := st.level + 1, last_upgraded := some now }
  else
    st

/-- Embedding of `upgrade_pullup` (progression.rs). -/
def upgrade_pullup (now : Int) (st : ProgressionState) (max_reps : Int) :
    ProgressionState :=
  if st.reps < max_reps then
    { st with reps := st.reps + 1, level := st.level + 1, last_upgraded := some now }
  else
    st

/-- The progression section of the configuration (config.rs,
`ProgressionConfig`; defaults 10 and 15). -/
structure ProgressionConfig where
  burpee_rep_ceiling : Int
  kb_swing_max_reps : Int
deriving DecidableEq

/-- Lookup in the association-list model of the progressions map. -/
def lookupProg (key : String) : List (String × ProgressionState) →
    Option ProgressionState
  | [] => none
  | p :: rest => if p.1 = key then some p.2 else lookupProg key rest

/-- Insert-or-replace in the association-list model of the progressions map
(`entry(..).or_insert_with` followed by in-place mutation of the entry). -/
def upsertProg (key : String) (v : ProgressionState) :
    List (String × ProgressionState) → List (String × ProgressionState)
  | [] => [(key, v)]
  | p :: rest => if p.1 = key then (key, v) :: rest else p :: upsertProg key v rest

/-- Initial progression entry `increase_intensity` creates for a definition id
(the `or_insert_with` closure). -/
def initialProgressionFor (def_id : String) : ProgressionState :=
  if def_id = "emom_burpee_5m" then
    { reps := 3, style := MovementStyle.burpee BurpeeStyle.fourCount,
      level := 0, last_upgraded := none }
  else if def_id = "emom_kb_swing_5m" then
    { reps := 5, style := MovementStyle.nothing, level := 0, last_upgraded := none }
  else if def_id = "gtg_pullup_band" then
    { reps := 3, style := MovementStyle.nothing, level := 0, last_upgraded := none }
  else
    { reps := 3, style := MovementStyle.nothing, level := 0, last_upgraded := none }

/-- Embedding of `increase_intensity` (progression.rs): get-or-create the
entry for the id, then apply the id-selected upgrade rule (unknown ids get a
warning and no rule). -/
def increase_intensity (now : Int) (def_id : String)
    (user_state : UserMicrodoseState) (config : ProgressionConfig) :
    UserMicrodoseState :=
  let st0 :=
    match lookupProg def_id user_state.progressions with
    | some st => st
    | none => initialProgressionFor def_id
  let st1 :=
    if def_id = "emom_burpee_5m" then
      upgrade_burpee now st0 config.burpee_rep_ceiling
    else if def_id = "emom_kb_swing_5m" then
      upgrade_kb_swing now st0 5 config.kb_swing_max_reps
    else if def_id = "gtg_pullup_band" then
      upgrade_pullup now st0 8
    else
      st0
  { user_state with progressions := upsertProg def_id st1 user_state.progressions }

-- ============================================================================
-- Progression state store (src/cardio_core/src/state.rs)
-- ============================================================================

/-- Outcome of the file reads `UserMicrodoseState::load` performs, one
constructor per early-return branch of the source; `content` carries the
serde_json parse outcome of the bytes that were read. -/
inductive StateFileOutcome where
  | absent
  | openFail
  | lockFail
  | readFail
  | content (parsed : Option UserMicrodoseState)

/-- Error the load can still surface (the `file.unlock()?` after a successful
read is its only fallible call left on the path). -/
inductive StateLoadError where
  | unlockFail
deriving DecidableEq

/-- Embedding of `UserMicrodoseState::load` (state.rs): every read-side
failure and a parse failure degrade to `Ok` of the default state; only an
unlock failure after a successful read propagates as an error. -/
def UserMicrodoseState.load (outcome : StateFileOutcome) (unlockOk : Bool) :
    Except StateLoadError UserMicrodoseState :=
  match outcome with
  | StateFileOutcome.absent => Except.ok UserMicrodoseState.default
  | StateFileOutcome.openFail => Except.ok UserMicrodoseState.default
  | StateFileOutcome.lockFail => Except.ok UserMicrodoseState.default
  | StateFileOutcome.readFail => Except.ok UserMicrodoseState.default
  | StateFileOutcome.content parsed =>
    if unlockOk then
      match parsed with
      | some st => Except.ok st
      | none => Except.ok UserMicrodoseState.default
    else
      Except.error StateLoadError.unlockFail

-- ============================================================================
-- CLI decision-session skip handling (src/cardio_cli/src/main.rs, cmd_now)
-- ============================================================================

/-- The state a `cmd_now` decision session threads through its prescription
loop: the durable WAL file and progression-state file, and the in-memory
recent-history view and skipped-id set. -/
structure CliSessionState where
  wal : List WalLine
  state_file : UserMicrodoseState
  recentSessions : List SessionKind
  skippedIds : List String
deriving DecidableEq

/-- Embedding of the `UserAction::Skip` branch of `cmd_now`: record the id as
skipped and push a `ShownButSkipped` marker onto the front of the in-memory
recent-session view; no persistence API is called. -/
def skip_action (def_id : String) (shown_at : Int) (st : CliSessionState) :
    CliSessionState :=
  { st with
    skippedIds := def_id :: st.skippedIds
    recentSessions := SessionKind.shownButSkipped def_id shown_at :: st.recentSessions }

/-- Apply a whole sequence of skip actions in order. -/
def apply_skips (skips : List (String × Int)) (st : CliSessionState) :
    CliSessionState :=
  skips.foldl (fun acc sk => skip_action sk.1 sk.2 acc) st

-- ============================================================================
-- Concrete fixtures used by counterexamples and witnesses
-- ============================================================================

/-- Session record with the given id, definition id and timestamp. -/
def mkSession (i : Nat) (defId : String) (t : Int) : Session :=
  { id := i, definition_id := defId, performed_at := t, started_at := some t,
    completed_at := some t, actual_duration_seconds := some 300,
    metrics_realized := [], perceived_rpe := none, avg_hr := none, max_hr := none }

/-- Context whose only history entry is a default-catalog Vo2 session
(`emom_burpee_5m`) performed one hour before `now`, with no strength signal. -/
def c4ctx : UserContext :=
  { now := 1000000
    user_state := UserMicrodoseState.default
    recent_sessions := [mkSession 1 "emom_burpee_5m" 996400]
    external_strength := none
    equipment_available := [] }

/-- Mobility definition with the given id. -/
def mkMob (i : String) : MicrodoseDefinition :=
  { id := i, name := i, category := MicrodoseCategory.mobility,
    suggested_duration_seconds := 120, gtg_friendly := true,
    blocks := [{ movement_id := "m", movement_style := MovementStyle.nothing,
                 duration_hint_seconds := 120,
                 metrics := [MetricSpec.reps "reps" 3 2 5 1 false] }],
    reference_url := none }

/-- Catalog of three mobility definitions M1 < M2 < M3 by id, listed in a
scrambled order to exercise the sort. -/
def mobCatalog : List MicrodoseDefinition := [mkMob "mob_b", mkMob "mob_c", mkMob "mob_a"]

/-- Context whose mobility cursor points at the middle candidate M2. -/
def c8ctxCursor : UserContext :=
  { now := 0, user_state := { progressions := [], last_mobility_def_id := some "mob_b" },
    recent_sessions := [], external_strength := none, equipment_available := [] }

/-- Context with no mobility cursor. -/
def c8ctxNone : UserContext :=
  { now := 0, user_state := UserMicrodoseState.default,
    recent_sessions := [], external_strength := none, equipment_available := [] }

/-- A fixed session used to build a WAL that lists the same id twice. -/
def dupS : Session := mkSession 7 "vo2_x" 999000

/-- Filesystem before a rollup: a WAL with one good record and one corrupt
line, and an existing but empty archive. -/
def fsW : RollupFs :=
  { wal := some [WalLine.record (mkSession 1 "emom_burpee_5m" 100), WalLine.bad "oops"],
    csv := some [], processed := none }

/-- Two distinct sessions sharing id 7, one in the WAL and one in the CSV. -/
def walS7 : Session := mkSession 7 "emom_burpee_5m" 999100

/-- The CSV's copy of id 7 (older duplicate of `walS7`). -/
def csvS7 : Session := mkSession 7 "emom_burpee_5m" 999000

/-- An archive-only session with a fresh id. -/
def csvS8 : Session := mkSession 8 "emom_kb_swing_5m" 999050

/-- Burpee progression at the rep ceiling with the four-count style, the
spec's ladder scenario. -/
def burpSt : ProgressionState :=
  { reps := 10, style := MovementStyle.burpee BurpeeStyle.fourCount,
    level := 7, last_upgraded := none }

/-- A user state owning one progression entry, for the level-monotonicity
witness. -/
def usFix : UserMicrodoseState :=
  { progressions := [("emom_kb_swing_5m",
      { reps := 7, style := MovementStyle.nothing, level := 2, last_upgraded := none })],
    last_mobility_def_id := none }

-- ============================================================================
-- Helper lemmas
-- ============================================================================

theorem read_sessions_append (a b : List WalLine) :
    read_sessions (a ++ b) = read_sessions a ++ read_sessions b := by
  induction a with
  | nil => rfl
  | cons l rest ih => cases l <;> simp [read_sessions, ih]

theorem read_sessions_append_all (f : List WalLine) (ss : List Session) :
    read_sessions (wal_append_all f ss) = read_sessions f ++ ss := by
  induction ss generalizing f with
  | nil => simp [wal_append_all]
  | cons s rest ih =>
    have h1 : wal_append_all f (s :: rest) = wal_append_all (f ++ [WalLine.record s]) rest := by
      simp [wal_append_all, wal_append]
    rw [h1, ih, read_sessions_append]
    simp [read_sessions]

theorem csvFilterDedup_countP_eq_zero (cutoff : Int) (i : Nat) :
    ∀ (seen : List Nat) (l : List Session), i ∈ seen →
      List.countP (fun s => decide (s.id = i)) (csvFilterDedup cutoff seen l) = 0 := by
  intro seen l
  induction l generalizing seen with
  | nil => intro _; rfl
  | cons s rest ih =>
    intro hseen
    by_cases hc : cutoff ≤ s.performed_at ∧ s.id ∉ seen
    · have hkeep : (decide (cutoff ≤ s.performed_at) && !(seen.contains s.id)) = true := by
        simp [hc.1, hc.2]
      have hne : s.id ≠ i := fun h => hc.2 (h ▸ hseen)
      simp only [csvFilterDedup, hkeep, if_true, List.countP_cons]
      have hrest := ih (s.id :: seen) (List.mem_cons_of_mem _ hseen)
      simp [hrest, hne]
    · have hkeep : (decide (cutoff ≤ s.performed_at) && !(seen.contains s.id)) = false := by
        rcases not_and_or.mp hc with h | h
        · simp [h]
        · simp at h
          simp [h]
      simp only [csvFilterDedup, hkeep, if_false]
      exact ih seen hseen

theorem csvFilterDedup_countP_le_one (cutoff : Int) (i : Nat) :
    ∀ (seen : List Nat) (l : List Session),
      List.countP (fun s => decide (s.id = i)) (csvFilterDedup cutoff seen l) ≤ 1 := by
  intro seen l
  induction l generalizing seen with
  | nil => simp [csvFilterDedup]
  | cons s rest ih =>
    by_cases hkeep : (decide (cutoff ≤ s.performed_at) && !(seen.contains s.id)) = true
    · simp only [csvFilterDedup, hkeep, if_true, List.countP_cons]
      by_cases hid : s.id = i
      · subst hid
        have hz := csvFilterDedup_countP_eq_zero cutoff s.id (s.id :: seen) rest
          (by simp)
        simp [hz]
      · simp only [hid, decide_eq_true_eq, if_false, add_zero, decide_False]
        exact ih (s.id :: seen)
    · simp only [csvFilterDedup, hkeep, if_false]
      exact ih seen

theorem mem_csvFilterDedup (cutoff : Int) :
    ∀ (seen : List Nat) (l : List Session) (s : Session),
      s ∈ csvFilterDedup cutoff seen l →
      cutoff ≤ s.performed_at ∧ s.id ∉ seen := by
  intro seen l
  induction l generalizing seen with
  | nil => intro s h; simp [csvFilterDedup] at h
  | cons x rest ih =>
    intro s h
    by_cases hkeep : (decide (cutoff ≤ x.performed_at) && !(seen.contains x.id)) = true
    · simp only [csvFilterDedup, hkeep, if_true, List.mem_cons] at h
      rcases h with h | h
      · subst h
        simp at hkeep
        exact ⟨hkeep.1, hkeep.2⟩
      · have := ih (x.id :: seen) s h
        exact ⟨this.1, fun hm => this.2 (List.mem_cons_of_mem _ hm)⟩
    · simp only [csvFilterDedup, hkeep, if_false] at h
      exact ih seen s h

instance : IsTotal Session newestFirst :=
  ⟨fun a b => le_total b.performed_at a.performed_at⟩

instance : IsTrans Session newestFirst :=
  ⟨fun _ _ _ hab hbc => le_trans hbc hab⟩

theorem lookupProg_upsertProg_self (k : String) (v : ProgressionState) :
    ∀ l, lookupProg k (upsertProg k v l) = some v := by
  intro l
  induction l with
  | nil => simp [upsertProg, lookupProg]
  | cons p rest ih =>
    by_cases hp : p.1 = k
    · simp [upsertProg, hp, lookupProg]
    · simp [upsertProg, hp, lookupProg, ih]

theorem lookupProg_upsertProg_ne (k k' : String) (v : ProgressionState)
    (hne : k' ≠ k) : ∀ l, lookupProg k' (upsertProg k v l) = lookupProg k' l := by
  intro l
  induction l with
  | nil => simp [upsertProg, lookupProg, Ne.symm hne]
  | cons p rest ih =>
    by_cases hp : p.1 = k
    · simp [upsertProg, hp, lookupProg, Ne.symm hne]
    · simp [upsertProg, hp, lookupProg, ih]

theorem findIdx?_of_getElem (last : String) :
    ∀ (l : List MicrodoseDefinition) (i : Nat) (d : MicrodoseDefinition),
      (l.map (fun d => d.id)).Nodup → l[i]? = some d → d.id = last →
      l.findIdx? (fun x => decide (x.id = last)) = some i := by
  intro l
  induction l with
  | nil => intro i d _ hg; simp at hg
  | cons x rest ih =>
    intro i d hnd hg hid
    have hnd0 : x.id ∉ rest.map (fun d => d.id) ∧ (rest.map (fun d => d.id)).Nodup := by
      rw [List.map_cons, List.nodup_cons] at hnd
      exact hnd
    cases i with
    | zero =>
      have hx : x = d := by simpa using hg
      subst hx
      simp [List.findIdx?_cons, hid]
    | succ j =>
      have hg' : rest[j]? = some d := by simpa using hg
      have hdmem : d ∈ rest := List.getElem?_mem hg'
      have hxd : x.id ≠ last := by
        intro hcontra
        exact hnd0.1 (by
          rw [hcontra, ← hid]
          exact List.mem_map_of_mem _ hdmem)
      have hxdb : decide (x.id = last) = false := by simp [hxd]
      rw [List.findIdx?_cons, hxdb]
      simp only [Bool.false_eq_true, if_false]
      rw [List.findIdx?_succ, ih j d hnd0.2 hg' hid]
      rfl

-- ============================================================================
-- Claim theorems
-- ============================================================================

/-- C2: appending N sessions to an initially empty WAL and reading it back
returns exactly those N sessions, values-equal, in append order; and the
reader skips an individual malformed or blank line without failing the whole
read, returning every successfully parsed record. -/
theorem wal_append_read_round_trip (sessions : List Session)
    (l1 l2 : List WalLine) (raw : String) :
    read_sessions (wal_append_all [] sessions) = sessions ∧
    read_sessions (l1 ++ WalLine.bad raw :: l2) = read_sessions (l1 ++ l2) ∧
    read_sessions (l1 ++ WalLine.blank :: l2) = read_sessions (l1 ++ l2) := by
  refine ⟨?_, ?_, ?_⟩
  · have h := read_sessions_append_all [] sessions
    simpa [read_sessions] using h
  · rw [read_sessions_append, read_sessions_append]
    simp [read_sessions]
  · rw [read_sessions_append, read_sessions_append]
    simp [read_sessions]

/-- C3: any number of skip actions within a decision session leaves the
durable WAL content (and the progression-state file) unchanged; a skip only
pushes a `ShownButSkipped` marker onto the in-memory recent-history view. -/
theorem skips_never_touch_wal (skips : List (String × Int)) (st : CliSessionState) :
    (apply_skips skips st).wal = st.wal ∧
    (apply_skips skips st).state_file = st.state_file := by
  induction skips generalizing st with
  | nil => exact ⟨rfl, rfl⟩
  | cons sk rest ih =>
    have h1 : apply_skips (sk :: rest) st = apply_skips rest (skip_action sk.1 sk.2 st) := rfl
    rw [h1]
    exact ⟨(ih (skip_action sk.1 sk.2 st)).1, (ih (skip_action sk.1 sk.2 st)).2⟩

/-- C4: divergence witness for the Vo2 recency rule. The context history
holds exactly one session, a default-catalog definition that denotes the Vo2
category (`emom_burpee_5m`), performed one hour before `now` (so not older
than 4 hours); the code still chooses Vo2 - its rule 2 looks for the
substring \x22vo2\x22, which no default-catalog Vo2 id contains - while the
claimed behaviour falls through to the rotation rule and yields Gtg. -/
theorem determine_category_vo2_substring_bug :
    denotesVo2 default_microdoses "emom_burpee_5m" = true ∧
    c4ctx.recent_sessions = [mkSession 1 "emom_burpee_5m" 996400] ∧
    c4ctx.now - (mkSession 1 "emom_burpee_5m" 996400).performed_at ≤ 4 * 3600 ∧
    determine_category c4ctx = MicrodoseCategory.vo2 ∧
    determine_category_per_spec default_microdoses c4ctx = MicrodoseCategory.gtg := by
  refine ⟨by decide, rfl, by decide, by decide, by decide⟩

/-- C6: `UserMicrodoseState::load` returns Ok with the fresh default state
when the file is absent, cannot be opened, cannot be locked, cannot be read,
or when its contents fail to parse. -/
theorem state_load_degrades_to_default (unlockOk : Bool) :
    UserMicrodoseState.load StateFileOutcome.absent unlockOk =
      Except.ok UserMicrodoseState.default ∧
    UserMicrodoseState.load StateFileOutcome.openFail unlockOk =
      Except.ok UserMicrodoseState.default ∧
    UserMicrodoseState.load StateFileOutcome.lockFail unlockOk =
      Except.ok UserMicrodoseState.default ∧
    UserMicrodoseState.load StateFileOutcome.readFail unlockOk =
      Except.ok UserMicrodoseState.default ∧
    UserMicrodoseState.load (StateFileOutcome.content none) true =
      Except.ok UserMicrodoseState.default :=
  ⟨rfl, rfl, rfl, rfl, rfl⟩

/-- C7: the burpee upgrade ladder. Below the ceiling reps increase by one;
at the ceiling the style advances four-count to six-count to
six-count-two-pump to seal, resetting reps to 6, 5 and 4 respectively; at
the final seal style reps are clamped at the ceiling and the style no longer
changes. Each branch also bumps the level by exactly one. -/
theorem upgrade_burpee_ladder (now : Int) (st : ProgressionState) (ceiling : Int) :
    (st.reps < ceiling →
      upgrade_burpee now st ceiling =
        { st with reps := st.reps + 1, level := st.level + 1, last_upgraded := some now }) ∧
    (¬ st.reps < ceiling → st.style = MovementStyle.burpee BurpeeStyle.fourCount →
      upgrade_burpee now st ceiling =
        { st with style := MovementStyle.burpee BurpeeStyle.sixCount, reps := 6,
                  level := st.level + 1, last_upgraded := some now }) ∧
    (¬ st.reps < ceiling → st.style = MovementStyle.burpee BurpeeStyle.sixCount →
      upgrade_burpee now st ceiling =
        { st with style := MovementStyle.burpee BurpeeStyle.sixCountTwoPump, reps := 5,
                  level := st.level + 1, last_upgraded := some now }) ∧
    (¬ st.reps < ceiling → st.style = MovementStyle.burpee BurpeeStyle.sixCountTwoPump →
      upgrade_burpee now st ceiling =
        { st with style := MovementStyle.burpee BurpeeStyle.seal, reps := 4,
                  level := st.level + 1, last_upgraded := some now }) ∧
    (¬ st.reps < ceiling → st.style = MovementStyle.burpee BurpeeStyle.seal →
      (upgrade_burpee now st ceiling).reps = ceiling ∧
      (upgrade_burpee now st ceiling).style = MovementStyle.burpee BurpeeStyle.seal ∧
      (upgrade_burpee now st ceiling).level = st.level + 1) := by
  refine ⟨?_, ?_, ?_, ?_, ?_⟩
  · intro h
    simp [upgrade_burpee, h]
  · intro h1 h2
    simp [upgrade_burpee, h1, h2]
  · intro h1 h2
    simp [upgrade_burpee, h1, h2]
  · intro h1 h2
    simp [upgrade_burpee, h1, h2]
  · intro h1 h2
    simp [upgrade_burpee, h1, h2]

/-- C7 witness: from reps = ceiling = 10 with the four-count style, one
upgrade yields six-count, reps 6 and level incremented by exactly one. -/
theorem upgrade_burpee_ladder_witness :
    ¬ burpSt.reps < 10 ∧
    upgrade_burpee 5 burpSt 10 =
      { burpSt with style := MovementStyle.burpee BurpeeStyle.sixCount, reps := 6,
                    level := burpSt.level + 1, last_upgraded := some 5 } :=
  ⟨by decide, (upgrade_burpee_ladder 5 burpSt 10).2.1 (by decide) (by decide)⟩

/-- C10: `increase_intensity` on a definition id other than the three known
ones creates (when absent) the default entry reps 3, style None, level 0, no
timestamp, and applies no upgrade rule, leaving the new entry at level 0 but
changing the state by the insertion. -/
theorem increase_intensity_unknown_id (now : Int) (def_id : String)
    (us : UserMicrodoseState) (config : ProgressionConfig)
    (h1 : def_id ≠ "emom_burpee_5m") (h2 : def_id ≠ "emom_kb_swing_5m")
    (h3 : def_id ≠ "gtg_pullup_band")
    (h4 : lookupProg def_id us.progressions = none) :
    lookupProg def_id (increase_intensity now def_id us config).progressions =
      some { reps := 3, style := MovementStyle.nothing, level := 0, last_upgraded := none } ∧
    increase_intensity now def_id us config ≠ us := by
  have hfind : lookupProg def_id (increase_intensity now def_id us config).progressions =
      some (initialProgressionFor def_id) := by
    simp [increase_intensity, h1, h2, h3, h4, lookupProg_upsertProg_self]
  have hinit : initialProgressionFor def_id =
      { reps := 3, style := MovementStyle.nothing, level := 0, last_upgraded := none } := by
    simp [initialProgressionFor, h1, h2, h3]
  refine ⟨hinit ▸ hfind, ?_⟩
  intro heq
  rw [heq, h4] at hfind
  simp at hfind

/-- C10 witness: a concrete unknown id on the default (empty) state. -/
theorem increase_intensity_unknown_id_witness :
    lookupProg "weird_def"
      (increase_intensity 5 "weird_def" UserMicrodoseState.default ⟨10, 15⟩).progressions =
      some { reps := 3, style := MovementStyle.nothing, level := 0, last_upgraded := none } ∧
    increase_intensity 5 "weird_def" UserMicrodoseState.default ⟨10, 15⟩ ≠
      UserMicrodoseState.default :=
  increase_intensity_unknown_id 5 "weird_def" UserMicrodoseState.default ⟨10, 15⟩
    (by decide) (by decide) (by decide) rfl

/-- C1: for a WAL holding at least one parseable session, the rollup returns
the session count, appends every session as a row to the archive (header
first when the archive opened new or empty), leaves the WAL path vacated and
the processed path holding the exact former WAL content, and its action
trace syncs the archive strictly before renaming the WAL; for a WAL with no
sessions it returns 0 and changes nothing. -/
theorem wal_to_csv_and_archive_safety (fs : RollupFs) :
    (read_sessions (fs.wal.getD []) ≠ [] →
      (wal_to_csv_and_archive fs).1 = (read_sessions (fs.wal.getD [])).length ∧
      (wal_to_csv_and_archive fs).2.1.csv =
        some ((fs.csv.getD [])
          ++ (if (fs.csv.getD []).isEmpty then [CsvLine.header] else [])
          ++ (read_sessions (fs.wal.getD [])).map (fun s => CsvLine.row (csvRowOfSession s))) ∧
      (wal_to_csv_and_archive fs).2.1.wal = none ∧
      (wal_to_csv_and_archive fs).2.1.processed = fs.wal ∧
      ∃ i j : Nat, i < j ∧
        (wal_to_csv_and_archive fs).2.2[i]? = some RollupEvent.syncCsv ∧
        (wal_to_csv_and_archive fs).2.2[j]? = some RollupEvent.renameWal) ∧
    (read_sessions (fs.wal.getD []) = [] →
      wal_to_csv_and_archive fs = (0, fs, [RollupEvent.readWal])) := by
  constructor
  · intro h
    have hne : (read_sessions (fs.wal.getD [])).isEmpty = false := by
      simpa [List.isEmpty_iff] using h
    refine ⟨?_, ?_, ?_, ?_, 2, 3, by omega, ?_, ?_⟩ <;>
      simp [wal_to_csv_and_archive, hne]
  · intro h
    simp [wal_to_csv_and_archive, h]

/-- C1 witness: a WAL with one good record and one corrupt line, rolled into
an existing empty archive. -/
theorem wal_to_csv_and_archive_safety_witness :
    read_sessions (fsW.wal.getD []) ≠ [] ∧
    (wal_to_csv_and_archive fsW).1 = 1 ∧
    (wal_to_csv_and_archive fsW).2.1.csv =
      some [CsvLine.header,
            CsvLine.row (csvRowOfSession (mkSession 1 "emom_burpee_5m" 100))] ∧
    (wal_to_csv_and_archive fsW).2.1.wal = none ∧
    (wal_to_csv_and_archive fsW).2.1.processed = fsW.wal := by
  have h := (wal_to_csv_and_archive_safety fsW).1 (by decide)
  exact ⟨by decide, h.1.trans (by decide), h.2.1.trans (by decide), h.2.2.1, h.2.2.2.1⟩

theorem mem_walWindowOf (now days : Int) (wal : Option (List WalLine)) (s : Session)
    (h : s ∈ walWindowOf now days wal) : now - days * 86400 ≤ s.performed_at := by
  cases wal with
  | none => simp [walWindowOf] at h
  | some w =>
    have := List.of_mem_filter h
    simpa using this

theorem mem_csvKeptOf (now days : Int) (seen : List Nat)
    (csv : Option (List WalLine)) (s : Session)
    (h : s ∈ csvKeptOf now days seen csv) :
    now - days * 86400 ≤ s.performed_at ∧ s.id ∉ seen := by
  cases csv with
  | none => simp [csvKeptOf] at h
  | some c => exact mem_csvFilterDedup _ seen (read_sessions c) s h

theorem csvKeptOf_countP_eq_zero (now days : Int) (i : Nat) (seen : List Nat)
    (csv : Option (List WalLine)) (h : i ∈ seen) :
    List.countP (fun s => decide (s.id = i)) (csvKeptOf now days seen csv) = 0 := by
  cases csv with
  | none => rfl
  | some c => exact csvFilterDedup_countP_eq_zero _ i seen (read_sessions c) h

theorem csvKeptOf_countP_le_one (now days : Int) (i : Nat) (seen : List Nat)
    (csv : Option (List WalLine)) :
    List.countP (fun s => decide (s.id = i)) (csvKeptOf now days seen csv) ≤ 1 := by
  cases csv with
  | none => simp [csvKeptOf]
  | some c => exact csvFilterDedup_countP_le_one _ i seen (read_sessions c)

/-- C5 counterexample: a WAL listing the same session id twice produces an
output with that id twice, so the loader does not return each session
identifier at most once for every WAL contents. -/
theorem load_recent_sessions_dup_in_wal_counterexample :
    ¬ ((load_recent_sessions 1000000 7
        (some [WalLine.record dupS, WalLine.record dupS]) none).countP
        (fun s => decide (s.id = 7)) ≤ 1) := by
  decide

/-- C5 (amended): the loader returns only sessions at or after the cutoff,
each identifier occurring at most once in the WAL window appears at most
once overall (the archive is deduplicated against the WAL and within
itself, the WAL is not deduplicated against itself), every returned session
whose id occurs in the WAL window is the WAL copy, the result is sorted
newest first, and an absent source contributes exactly what an empty one
does. -/
theorem load_recent_sessions_amended (now days : Int)
    (wal csv : Option (List WalLine)) :
    (∀ s ∈ load_recent_sessions now days wal csv,
      now - days * 86400 ≤ s.performed_at) ∧
    (∀ i : Nat,
      List.countP (fun s => decide (s.id = i)) (walWindowOf now days wal) ≤ 1 →
      List.countP (fun s => decide (s.id = i)) (load_recent_sessions now days wal csv) ≤ 1) ∧
    (∀ s ∈ load_recent_sessions now days wal csv,
      s.id ∈ (walWindowOf now days wal).map (fun s => s.id) →
      s ∈ walWindowOf now days wal) ∧
    List.Sorted newestFirst (load_recent_sessions now days wal csv) ∧
    load_recent_sessions now days none csv = load_recent_sessions now days (some []) csv ∧
    load_recent_sessions now days wal none = load_recent_sessions now days wal (some []) := by
  have hperm : (load_recent_sessions now days wal csv).Perm
      (walWindowOf now days wal ++
        csvKeptOf now days ((walWindowOf now days wal).map (fun s => s.id)) csv) :=
    List.perm_insertionSort newestFirst _
  refine ⟨?_, ?_, ?_, ?_, ?_, ?_⟩
  · intro s hs
    have hs' := hperm.mem_iff.mp hs
    rcases List.mem_append.mp hs' with h | h
    · exact mem_walWindowOf now days wal s h
    · exact (mem_csvKeptOf now days _ csv s h).1
  · intro i hi
    have hcnt := hperm.countP_eq (fun s => decide (s.id = i))
    rw [hcnt, List.countP_append]
    by_cases hmem : i ∈ (walWindowOf now days wal).map (fun s => s.id)
    · have h0 := csvKeptOf_countP_eq_zero now days i _ csv hmem
      omega
    · have h0 : List.countP (fun s => decide (s.id = i)) (walWindowOf now days wal) = 0 := by
        refine List.countP_eq_zero.mpr ?_
        intro a ha
        simp only [decide_eq_true_eq]
        intro heq
        exact hmem (heq ▸ List.mem_map_of_mem _ ha)
      have h1 := csvKeptOf_countP_le_one now days i
        ((walWindowOf now days wal).map (fun s => s.id)) csv
      omega
  · intro s hs hmem
    have hs' := hperm.mem_iff.mp hs
    rcases List.mem_append.mp hs' with h | h
    · exact h
    · exact absurd hmem (mem_csvKeptOf now days _ csv s h).2
  · exact List.sorted_insertionSort newestFirst _
  · rfl
  · rfl

/-- C5 witness for the amended statement: one WAL session and an archive
holding an older duplicate of it plus a fresh session. -/
theorem load_recent_sessions_amended_witness :
    (1000000 - 7 * 86400 ≤ walS7.performed_at) ∧
    List.countP (fun s => decide (s.id = 7))
      (load_recent_sessions 1000000 7 (some [WalLine.record walS7])
        (some [WalLine.record csvS7, WalLine.record csvS8])) ≤ 1 ∧
    walS7 ∈ walWindowOf 1000000 7 (some [WalLine.record walS7]) := by
  have h := load_recent_sessions_amended 1000000 7 (some [WalLine.record walS7])
    (some [WalLine.record csvS7, WalLine.record csvS8])
  exact ⟨h.1 walS7 (by decide), h.2.1 7 (by decide),
    h.2.2.1 walS7 (by decide) (by decide)⟩

/-- C8: mobility selection over the id-sorted candidate list. With no cursor
the first candidate is picked; with a cursor naming the candidate at index i
(candidate ids distinct) the candidate at index (i+1) mod count is picked;
with a cursor matching no candidate the first is picked. Concretely, for
three mobility definitions M1 < M2 < M3 by id, cursor M2 prescribes M3 and
no cursor prescribes M1. -/
theorem mobility_selection_round_robin (catalog : List MicrodoseDefinition)
    (ctx : UserContext) :
    (ctx.user_state.last_mobility_def_id = none →
      select_definition_from_category catalog ctx MicrodoseCategory.mobility =
        (categoryCandidates catalog MicrodoseCategory.mobility).head?) ∧
    (∀ (last : String) (i : Nat) (d : MicrodoseDefinition),
      ctx.user_state.last_mobility_def_id = some last →
      ((categoryCandidates catalog MicrodoseCategory.mobility).map (fun d => d.id)).Nodup →
      (categoryCandidates catalog MicrodoseCategory.mobility)[i]? = some d →
      d.id = last →
      select_definition_from_category catalog ctx MicrodoseCategory.mobility =
        (categoryCandidates catalog MicrodoseCategory.mobility)[(i + 1) %
          (categoryCandidates catalog MicrodoseCategory.mobility).length]?) ∧
    (∀ last : String,
      ctx.user_state.last_mobility_def_id = some last →
      (categoryCandidates catalog MicrodoseCategory.mobility).findIdx?
        (fun d => decide (d.id = last)) = none →
      select_definition_from_category catalog ctx MicrodoseCategory.mobility =
        (categoryCandidates catalog MicrodoseCategory.mobility).head?) ∧
    (prescribe_next mobCatalog c8ctxCursor (some MicrodoseCategory.mobility)).map
      (fun p => p.definition.id) = some "mob_c" ∧
    (prescribe_next mobCatalog c8ctxNone (some MicrodoseCategory.mobility)).map
      (fun p => p.definition.id) = some "mob_a" := by
  refine ⟨?_, ?_, ?_, by decide, by decide⟩
  · intro h
    by_cases he : (categoryCandidates catalog MicrodoseCategory.mobility).isEmpty
    · have hnil : categoryCandidates catalog MicrodoseCategory.mobility = [] := by
        simpa [List.isEmpty_iff] using he
      simp [select_definition_from_category, hnil]
    · simp only [Bool.not_eq_true] at he
      simp [select_definition_from_category, he, h]
  · intro last i d hcur hnd hget hid
    have hfi := findIdx?_of_getElem last
      (categoryCandidates catalog MicrodoseCategory.mobility) i d hnd hget hid
    have hlen : i < (categoryCandidates catalog MicrodoseCategory.mobility).length :=
      (List.getElem?_eq_some_iff.mp hget).1
    have hne : (categoryCandidates catalog MicrodoseCategory.mobility).isEmpty = false := by
      rcases hl : categoryCandidates catalog MicrodoseCategory.mobility with _ | ⟨x, xs⟩
      · rw [hl] at hlen
        simp at hlen
      · rfl
    simp [select_definition_from_category, hne, hcur, hfi]
  · intro last hcur hfi
    by_cases he : (categoryCandidates catalog MicrodoseCategory.mobility).isEmpty
    · have hnil : categoryCandidates catalog MicrodoseCategory.mobility = [] := by
        simpa [List.isEmpty_iff] using he
      simp [select_definition_from_category, hnil]
    · simp only [Bool.not_eq_true] at he
      simp [select_definition_from_category, he, hcur, hfi]

/-- C8 witness: the three-candidate catalog with cursor M2 picks index
(1+1) mod 3, and with no cursor picks the head. -/
theorem mobility_selection_round_robin_witness :
    select_definition_from_category mobCatalog c8ctxCursor MicrodoseCategory.mobility =
      (categoryCandidates mobCatalog MicrodoseCategory.mobility)[(1 + 1) %
        (categoryCandidates mobCatalog MicrodoseCategory.mobility).length]? ∧
    select_definition_from_category mobCatalog c8ctxNone MicrodoseCategory.mobility =
      (categoryCandidates mobCatalog MicrodoseCategory.mobility).head? :=
  ⟨(mobility_selection_round_robin mobCatalog c8ctxCursor).2.1 "mob_b" 1 (mkMob "mob_b")
      rfl (by decide) (by decide) rfl,
   (mobility_selection_round_robin mobCatalog c8ctxNone).1 rfl⟩

theorem upgrade_burpee_level_eq (now : Int) (st : ProgressionState) (c : Int) :
    (upgrade_burpee now st c).level = st.level + 1 := by
  unfold upgrade_burpee
  by_cases h : st.reps < c
  · rw [if_pos h]
  · rw [if_neg h]
    cases hs : st.style with
    | nothing => simp
    | burpee b => cases b <;> simp
    | band sp => simp

theorem upgrade_burpee_last_eq (now : Int) (st : ProgressionState) (c : Int) :
    (upgrade_burpee now st c).last_upgraded = some now := by
  unfold upgrade_burpee
  by_cases h : st.reps < c
  · rw [if_pos h]
  · rw [if_neg h]
    cases hs : st.style with
    | nothing => simp
    | burpee b => cases b <;> simp
    | band sp => simp

theorem upgrade_kb_swing_level_ge (now : Int) (st : ProgressionState) (base mx : Int) :
    st.level ≤ (upgrade_kb_swing now st base mx).level := by
  unfold upgrade_kb_swing
  by_cases h : st.reps < mx
  · rw [if_pos h]
    exact Nat.le_succ _
  · rw [if_neg h]

theorem upgrade_pullup_level_ge (now : Int) (st : ProgressionState) (mx : Int) :
    st.level ≤ (upgrade_pullup now st mx).level := by
  unfold upgrade_pullup
  by_cases h : st.reps < mx
  · rw [if_pos h]
    exact Nat.le_succ _
  · rw [if_neg h]

/-- C9: the level counter never decreases under any upgrade operation
(burpee, kettlebell swing, pullup, and `increase_intensity` for every entry
of the map), and every upgrade that changes reps or style sets the level to
exactly one more and records the upgrade timestamp. -/
theorem progression_level_monotone (now : Int) (st : ProgressionState)
    (c base mx : Int) (def_id : String) (us : UserMicrodoseState)
    (config : ProgressionConfig) :
    st.level ≤ (upgrade_burpee now st c).level ∧
    st.level ≤ (upgrade_kb_swing now st base mx).level ∧
    st.level ≤ (upgrade_pullup now st mx).level ∧
    (∀ (id0 : String) (st0 : ProgressionState),
      lookupProg id0 us.progressions = some st0 →
      ∃ st1, lookupProg id0 (increase_intensity now def_id us config).progressions = some st1 ∧
        st0.level ≤ st1.level) ∧
    ((upgrade_burpee now st c).reps ≠ st.reps ∨ (upgrade_burpee now st c).style ≠ st.style →
      (upgrade_burpee now st c).level = st.level + 1 ∧
      (upgrade_burpee now st c).last_upgraded = some now) ∧
    ((upgrade_kb_swing now st base mx).reps ≠ st.reps ∨
        (upgrade_kb_swing now st base mx).style ≠ st.style →
      (upgrade_kb_swing now st base mx).level = st.level + 1 ∧
      (upgrade_kb_swing now st base mx).last_upgraded = some now) ∧
    ((upgrade_pullup now st mx).reps ≠ st.reps ∨
        (upgrade_pullup now st mx).style ≠ st.style →
      (upgrade_pullup now st mx).level = st.level + 1 ∧
      (upgrade_pullup now st mx).last_upgraded = some now) := by
  refine ⟨?_, upgrade_kb_swing_level_ge now st base mx, upgrade_pullup_level_ge now st mx,
    ?_, ?_, ?_, ?_⟩
  · rw [upgrade_burpee_level_eq]
    exact Nat.le_succ _
  · intro id0 st0 hl
    by_cases hid : id0 = def_id
    · subst hid
      have hprog : (increase_intensity now id0 us config).progressions =
          upsertProg id0
            (if id0 = "emom_burpee_5m" then upgrade_burpee now st0 config.burpee_rep_ceiling
             else if id0 = "emom_kb_swing_5m" then
               upgrade_kb_swing now st0 5 config.kb_swing_max_reps
             else if id0 = "gtg_pullup_band" then upgrade_pullup now st0 8
             else st0) us.progressions := by
        simp [increase_intensity, hl]
      refine ⟨_, by rw [hprog]; exact lookupProg_upsertProg_self _ _ _, ?_⟩
      by_cases hb : id0 = "emom_burpee_5m"
      · rw [if_pos hb, upgrade_burpee_level_eq]
        exact Nat.le_succ _
      · by_cases hk : id0 = "emom_kb_swing_5m"
        · rw [if_neg hb, if_pos hk]
          exact upgrade_kb_swing_level_ge now st0 5 config.kb_swing_max_reps
        · by_cases hp : id0 = "gtg_pullup_band"
          · rw [if_neg hb, if_neg hk, if_pos hp]
            exact upgrade_pullup_level_ge now st0 8
          · rw [if_neg hb, if_neg hk, if_neg hp]
    · refine ⟨st0, ?_, le_refl _⟩
      calc lookupProg id0 (increase_intensity now def_id us config).progressions
          = lookupProg id0 us.progressions :=
            lookupProg_upsertProg_ne def_id id0 _ hid us.progressions
        _ = some st0 := hl
  · intro _
    exact ⟨upgrade_burpee_level_eq now st c, upgrade_burpee_last_eq now st c⟩
  · intro hch
    by_cases h : st.reps < mx
    · constructor <;> simp [upgrade_kb_swing, h]
    · exfalso
      rcases hch with hc | hc <;> exact hc (by simp [upgrade_kb_swing, h])
  · intro hch
    by_cases h : st.reps < mx
    · constructor <;> simp [upgrade_pullup, h]
    · exfalso
      rcases hch with hc | hc <;> exact hc (by simp [upgrade_pullup, h])

/-- C9 witness: concrete instances of the monotonicity and the
successful-upgrade bookkeeping. -/
theorem progression_level_monotone_witness :
    burpSt.level ≤ (upgrade_burpee 5 burpSt 10).level ∧
    (∃ st1, lookupProg "emom_kb_swing_5m"
        (increase_intensity 5 "emom_kb_swing_5m" usFix ⟨10, 15⟩).progressions = some st1 ∧
      ({ reps := 7, style := MovementStyle.nothing, level := 2,
         last_upgraded := none } : ProgressionState).level ≤ st1.level) ∧
    (upgrade_burpee 5 burpSt 10).level = burpSt.level + 1 ∧
    (upgrade_burpee 5 burpSt 10).last_upgraded = some 5 := by
  have h := progression_level_monotone 5 burpSt 10 5 15 "emom_kb_swing_5m" usFix ⟨10, 15⟩
  have h4 := h.2.2.2.1 "emom_kb_swing_5m"
    { reps := 7, style := MovementStyle.nothing, level := 2, last_upgraded := none } rfl
  have h5 := h.2.2.2.2.1 (Or.inl (by decide))
  exact ⟨h.1, h4, h5.1, h5.2⟩
